import Mathlib

/-
Shallow embedding of the trace-and-enrich pipeline of src/api/trace.php.

PHP strings are modelled as Lean String (lists of characters); PHP arrays of
lines as List String; PHP associative arrays (the JSON hop records) as
association lists `List (String × JVal)` in insertion order; the external
geolocation HTTP call as an oracle `String → Option ApiData`, where `none`
stands for every outcome in which `file_get_contents` returned false or
`json_decode` did not produce a usable array (network failure, timeout,
malformed body), and `some d` for a decoded JSON object.  The two `preg_match`
patterns and the skip conditions of `parseTraceroute` are implemented
character-by-character with PCRE leftmost-match, greedy-with-backtracking
semantics specialised to those concrete patterns.
-/

/-- Character class trimmed by PHP `trim` with default arguments:
space, tab, newline, carriage return, NUL and vertical tab. -/
def phpTrimChar (c : Char) : Bool :=
  c == ' ' || c == '\t' || c == '\n' || c == '\r' || c == Char.ofNat 0 || c == Char.ofNat 11

/-- PHP `trim(s)`: strip `phpTrimChar` characters from both ends. -/
def phpTrim (s : String) : String :=
  String.mk (((s.data.dropWhile phpTrimChar).reverse.dropWhile phpTrimChar).reverse)

/-- PHP `empty` restricted to strings: true exactly for `""` and `"0"`
(the two falsy strings in PHP). -/
def phpEmpty (s : String) : Bool :=
  s == "" || s == "0"

/-- PCRE `\s` character class: space, tab, newline, vertical tab, form feed,
carriage return. -/
def isPcreSpace (c : Char) : Bool :=
  c == ' ' || c == '\t' || c == '\n' || c == '\r' || c == Char.ofNat 12 || c == Char.ofNat 11

/-- PCRE `[0-9a-fA-F]` character class used by the IPv6 pattern. -/
def isHexDigit (c : Char) : Bool :=
  c.isDigit || (decide (97 ≤ c.toNat) && decide (c.toNat ≤ 102))
    || (decide (65 ≤ c.toNat) && decide (c.toNat ≤ 70))

/-- PCRE `[0-9a-fA-F:]` character class (tail of the IPv6 pattern). -/
def isHexOrColon (c : Char) : Bool :=
  isHexDigit c || c == ':'

/-- Match of `([0-9a-fA-F]{1,4}:[0-9a-fA-F:]+)` anchored at the head of `cs`.
Since a hex digit is never a colon, the greedy `{1,4}` with backtracking can
succeed only by consuming the entire maximal hex-digit run (of length 1..4)
followed by a literal colon; the final `+` is greedy with nothing after it,
so it consumes the maximal nonempty run of `[0-9a-fA-F:]`. -/
def matchIPv6At (cs : List Char) : Option (List Char) :=
  let run := cs.takeWhile isHexDigit
  if 1 ≤ run.length ∧ run.length ≤ 4 then
    match cs.drop run.length with
    | ':' :: rest =>
      let tl := rest.takeWhile isHexOrColon
      if 1 ≤ tl.length then some (run ++ ':' :: tl) else none
    | _ => none
  else none

/-- Match of `\d{1,3}\.` anchored at the head of `cs`, returning the digits
and the remainder after the dot.  As digits are never dots, greedy `{1,3}`
with backtracking succeeds only on the entire maximal digit run. -/
def matchOctetDot (cs : List Char) : Option (List Char × List Char) :=
  let run := cs.takeWhile Char.isDigit
  if 1 ≤ run.length ∧ run.length ≤ 3 then
    match cs.drop run.length with
    | '.' :: rest => some (run, rest)
    | _ => none
  else none

/-- Capture group of `\[?(\d{1,3}\.\d{1,3}\.\d{1,3}\.\d{1,3})\]?` anchored at
the head of `cs` (at the first digit).  The optional bracket and closing
bracket lie outside the capture group and never constrain it, so they are
dropped from the model; the final `\d{1,3}` is greedy with only the optional
`\]?` after it, hence takes `min 3 r` digits of the maximal run `r ≥ 1`. -/
def matchIPv4At (cs : List Char) : Option (List Char) :=
  match matchOctetDot cs with
  | none => none
  | some (d1, r1) =>
    match matchOctetDot r1 with
    | none => none
    | some (d2, r2) =>
      match matchOctetDot r2 with
      | none => none
      | some (d3, r3) =>
        let d4 := r3.takeWhile Char.isDigit
        if 1 ≤ d4.length then
          some (d1 ++ '.' :: d2 ++ '.' :: d3 ++ '.' :: d4.take 3)
        else none

/-- PCRE unanchored search: try the anchored matcher at every position from
left to right and return the first (leftmost) match.  Both matchers above
fail on the empty suffix, so the empty position is not tried. -/
def pcreScan (matchAt : List Char → Option (List Char)) : List Char → Option (List Char)
  | [] => none
  | c :: rest =>
    match matchAt (c :: rest) with
    | some m => some m
    | none => pcreScan matchAt rest

/-- Match of `\s+\*` anchored at the head of `cs`, returning the remainder.
Spaces are never asterisks, so greedy `\s+` consumes the maximal nonempty
space run and the next character must be a literal asterisk. -/
def spacesThenStar (cs : List Char) : Option (List Char) :=
  let sp := cs.takeWhile isPcreSpace
  if 1 ≤ sp.length then
    match cs.drop sp.length with
    | '*' :: rest => some rest
    | _ => none
  else none

/-- PHP `preg_match` of the skip pattern `^\s*\d+\s+\*\s+\*\s+\*` against a
line: optional leading whitespace, a hop index, then three asterisk
placeholders.  All adjacent classes are disjoint, so maximal munch agrees
with PCRE backtracking. -/
def asteriskLine (cs : List Char) : Bool :=
  let r1 := cs.dropWhile isPcreSpace
  let ds := r1.takeWhile Char.isDigit
  if 1 ≤ ds.length then
    match spacesThenStar (r1.drop ds.length) with
    | none => false
    | some r2 =>
      match spacesThenStar r2 with
      | none => false
      | some r3 =>
        match spacesThenStar r3 with
        | none => false
        | some _ => true
  else false

/-- Substring test on character lists (PHP `strpos(hay, needle) !== false`). -/
def containsSub (needle : List Char) : List Char → Bool
  | [] => needle.isEmpty
  | c :: rest => needle.isPrefixOf (c :: rest) || containsSub needle rest

/-- ASCII lower-casing of one character (PHP `strtolower` on bytes). -/
def lowerChar (c : Char) : Char :=
  if 65 ≤ c.toNat ∧ c.toNat ≤ 90 then Char.ofNat (c.toNat + 32) else c

/-- PHP `stripos($line, 'Request timed out') !== false`: ASCII
case-insensitive substring search. -/
def containsTimedOut (line : String) : Bool :=
  containsSub "request timed out".data (line.data.map lowerChar)

/-- Per-line address extraction of `parseTraceroute`: the IPv6 pattern is
tried first, and only if it fails the IPv4 pattern. -/
def extractIp (line : String) : Option String :=
  match pcreScan matchIPv6At line.data with
  | some m => some (String.mk m)
  | none =>
    match pcreScan matchIPv4At line.data with
    | some m => some (String.mk m)
    | none => none

/-- Loop body of `parseTraceroute` for one raw output line: skip a line whose
trimmed form is PHP-empty, a line carrying a case-insensitive
`Request timed out` marker, and an asterisk placeholder line; otherwise
extract an address (IPv6 before IPv4) and append it if it is new. -/
def processLine (ips : List String) (line : String) : List String :=
  if phpEmpty (phpTrim line) then ips
  else if containsTimedOut line || asteriskLine line.data then ips
  else
    match extractIp line with
    | none => ips
    | some ip => if ip ∈ ips then ips else ips ++ [ip]

/-- Function `parseTraceroute($output, $isWindows)` of src/api/trace.php.
The `isWindows` flag is a parameter of the source function and, exactly as in
the source, is not consulted by the body. -/
def parseTraceroute (output : List String) (isWindows : Bool) : List String :=
  output.foldl processLine []

/-- The skip-or-extract outcome of one line (used to state parser claims). -/
def lineAddr (line : String) : Option String :=
  if phpEmpty (phpTrim line) then none
  else if containsTimedOut line || asteriskLine line.data then none
  else extractIp line

/-- JSON values carried in hop records.  Numeric JSON values are opaque for
every claim, so a single integer constructor suffices (hop numbers are the
only numbers the pipeline itself creates). -/
inductive JVal where
  | null
  | jstr (s : String)
  | jnum (n : Int)
  | jbool (b : Bool)
deriving DecidableEq, Repr

/-- A hop record: PHP associative array in insertion order. -/
abbrev GeoRec := List (String × JVal)

/-- Decoded JSON object returned by the ip-api.com endpoint; every field is
optional (`none` models an absent key, read as PHP null). -/
structure ApiData where
  status : Option JVal := none
  message : Option JVal := none
  country : Option JVal := none
  countryCode : Option JVal := none
  region : Option JVal := none
  regionName : Option JVal := none
  city : Option JVal := none
  lat : Option JVal := none
  lon : Option JVal := none
  isp : Option JVal := none
  org : Option JVal := none
  asField : Option JVal := none
  query : Option JVal := none

/-- Fallback record built by `getGeolocation` when the lookup fails: only the
keys ip, country, city, lat, lon and isp are present. -/
def fallbackGeo (ip : String) : GeoRec :=
  [("ip", JVal.jstr ip), ("country", JVal.null), ("city", JVal.null),
   ("lat", JVal.null), ("lon", JVal.null), ("isp", JVal.null)]

/-- Function `getGeolocation($ip)` of src/api/trace.php, with the HTTP
response supplied as input.  The success branch requires a decoded object
whose status field is exactly the string success; every `?? null` becomes
`Option.getD JVal.null` and the ip key takes the query field of the
response. -/
def getGeolocation (ip : String) (response : Option ApiData) : GeoRec :=
  match response with
  | some data =>
    if data.status = some (JVal.jstr "success") then
      [("ip", data.query.getD JVal.null),
       ("country", data.country.getD JVal.null),
       ("countryCode", data.countryCode.getD JVal.null),
       ("region", data.regionName.getD JVal.null),
       ("city", data.city.getD JVal.null),
       ("lat", data.lat.getD JVal.null),
       ("lon", data.lon.getD JVal.null),
       ("isp", data.isp.getD JVal.null),
       ("org", data.org.getD JVal.null),
       ("as", data.asField.getD JVal.null)]
    else fallbackGeo ip
  | none => fallbackGeo ip

/-- Observable events of the enrichment loop: one lookup per address and the
`usleep(700000)` delays inserted between consecutive lookups. -/
inductive GeoEvent where
  | lookup (ip : String)
  | delay
deriving DecidableEq, Repr

/-- Loop of `getGeolocations`: for each `($index, $ip)` pair perform the
lookup, append the hop number `$index + 1`, and issue the rate-limit delay
whenever `$index < count($ips) - 1`.  Returns the hop records together with
the event trace. -/
def geoLoop (oracle : String → Option ApiData) (total : Nat) :
    List (Nat × String) → List GeoRec × List GeoEvent
  | [] => ([], [])
  | (idx, ip) :: rest =>
    let geoData := getGeolocation ip (oracle ip) ++ [("hop", JVal.jnum (Int.ofNat (idx + 1)))]
    let r := geoLoop oracle total rest
    (geoData :: r.1,
     GeoEvent.lookup ip :: ((if idx < total - 1 then [GeoEvent.delay] else []) ++ r.2))

/-- Function `getGeolocations($ips)` of src/api/trace.php (hop records). -/
def getGeolocations (oracle : String → Option ApiData) (ips : List String) : List GeoRec :=
  (geoLoop oracle ips.length ips.enum).1

/-- Event trace of `getGeolocations` (lookups and inter-call delays). -/
def geoEvents (oracle : String → Option ApiData) (ips : List String) : List GeoEvent :=
  (geoLoop oracle ips.length ips.enum).2

/-- The four JSON envelopes the endpoint can emit: the missing-target error
with usage hint, the invalid-format error, the catch-block error envelope
carrying a message and the target, and the success envelope. -/
inductive Response where
  | missingTarget
  | invalidFormat
  | error (msg : String) (target : String)
  | success (target : String) (timestamp : String) (hopCount : Nat) (hops : List GeoRec)
deriving DecidableEq

/-- Main try block of src/api/trace.php, starting after input validation,
with the traceroute result (output lines, platform flag, return code) and
the geolocation oracle supplied as inputs.  The return code is captured by
`executeTraceroute` but never consulted.  The two `throw new Exception`
sites become the catch-block error envelope directly. -/
def runPipeline (target : String) (output : List String) (isWindows : Bool)
    (returnCode : Int) (oracle : String → Option ApiData) (timestamp : String) : Response :=
  if output.isEmpty then
    Response.error "Traceroute command failed or returned no output" target
  else
    let ips := parseTraceroute output isWindows
    if ips.isEmpty then
      Response.error "No valid IP addresses found in traceroute output" target
    else
      let hops := getGeolocations oracle ips
      Response.success target timestamp hops.length hops

/-- Allow-listed character set of the validation regex `^[a-zA-Z0-9.-]+$`. -/
def allowedTargetChar (c : Char) : Bool :=
  c.isAlpha || c.isDigit || c == '.' || c == '-'

/-- PHP `preg_match` of `^[a-zA-Z0-9.-]+$` against the (already trimmed)
target: nonempty and every character allow-listed.  The PCRE dollar can also
match before a final newline, but the argument is always trimmed first and
hence never ends in a newline. -/
def targetPattern (s : String) : Bool :=
  !s.data.isEmpty && s.data.all allowedTargetChar

/-- Top level of src/api/trace.php: read the target query parameter (absent
modelled as `none`), trim it, reject PHP-empty targets, reject targets
failing the allow-list regex, and otherwise run the pipeline. -/
def handleRequest (param : Option String) (output : List String) (isWindows : Bool)
    (returnCode : Int) (oracle : String → Option ApiData) (timestamp : String) : Response :=
  let target := match param with
    | some s => phpTrim s
    | none => ""
  if phpEmpty target then Response.missingTarget
  else if !targetPattern target then Response.invalidFormat
  else runPipeline target output isWindows returnCode oracle timestamp

/-- Index of the first occurrence of `a` in a list (length of the list when
absent); used to state the first-appearance ordering of the parser. -/
def firstIdx (a : String) : List String → Nat
  | [] => 0
  | b :: t => if a = b then 0 else firstIdx a t + 1

/-- Specification-side first-occurrence deduplication, used to characterise
the accumulator loop of `parseTraceroute`. -/
def dedupFirst : List String → List String
  | [] => []
  | a :: t => a :: (dedupFirst t).filter (fun b => decide (b ≠ a))

/-- Accumulator step of `parseTraceroute`: append an address unless it is
already present. -/
def addIfNew (ips : List String) (ip : String) : List String :=
  if ip ∈ ips then ips else ips ++ [ip]

/-- Read of a key from a hop record (PHP associative-array subscript; the
pipeline never creates a duplicate key).  Returns `none` for an absent key. -/
def jLookup (key : String) : GeoRec → Option JVal
  | [] => none
  | (k, v) :: rest => if key = k then some v else jLookup key rest

/-- Helper: a nonempty output whose parse is empty drives the pipeline into
the second throw site. -/
theorem runPipeline_noHops (t : String) (out : List String) (w : Bool) (rc : Int)
    (oracle : String → Option ApiData) (ts : String)
    (h1 : out ≠ []) (h2 : parseTraceroute out w = []) :
    runPipeline t out w rc oracle ts =
      Response.error "No valid IP addresses found in traceroute output" t := by
  unfold runPipeline
  rw [if_neg (by simp [List.isEmpty_iff, h1]), h2]
  simp

/-- Claim C4: the parser extracts no address from the all-asterisk line,
extracts the bracketed IPv4 literal without its brackets, and extracts the
IPv6 literal (tried before IPv4) from a line carrying one. -/
theorem parser_line_examples :
    lineAddr "3  * * *" = none ∧
    lineAddr "[192.0.2.5]" = some "192.0.2.5" ∧
    lineAddr " 1  2001:4860:0:1::67e  1.2 ms" = some "2001:4860:0:1::67e" :=
  ⟨by decide, by decide, by decide⟩

/-- Claim C5: whenever the discovery output is nonempty but the parser
extracts zero addresses, the pipeline emits exactly the no-hops error
envelope (never a crash, never an empty success). -/
theorem noHops_error (t : String) (out : List String) (w : Bool) (rc : Int)
    (oracle : String → Option ApiData) (ts : String)
    (h1 : out ≠ []) (h2 : parseTraceroute out w = []) :
    runPipeline t out w rc oracle ts =
      Response.error "No valid IP addresses found in traceroute output" t :=
  runPipeline_noHops t out w rc oracle ts h1 h2

/-- Witness for C5 at a concrete nonempty output with no extractable
address. -/
theorem noHops_error_witness :
    runPipeline "example.com" ["hello"] false 0 (fun _ => none) "ts" =
      Response.error "No valid IP addresses found in traceroute output" "example.com" :=
  noHops_error "example.com" ["hello"] false 0 (fun _ => none) "ts" (by decide) (by decide)

/-- Claim C8: the pipeline result never depends on the captured process
return code, and the discovery-failure envelope is emitted exactly when the
process produced zero output lines. -/
theorem discovery_failure_iff_no_output (t : String) (out : List String) (w : Bool)
    (rc rc' : Int) (oracle : String → Option ApiData) (ts : String) :
    runPipeline t out w rc oracle ts = runPipeline t out w rc' oracle ts ∧
    (runPipeline t out w rc oracle ts =
        Response.error "Traceroute command failed or returned no output" t ↔ out = []) := by
  refine ⟨rfl, ?_, ?_⟩
  · intro h
    rcases out with _ | ⟨a, l⟩
    · rfl
    · exfalso
      simp only [runPipeline, List.isEmpty_cons, Bool.false_eq_true, if_false] at h
      split at h <;> simp at h
  · intro h
    subst h
    simp [runPipeline]

/-- Claim C9, counterexample to the claim as stated: there is no raw output
on which the platform flag changes the parse, because `parseTraceroute`
ignores its platform-flag parameter. -/
theorem platform_flag_cex :
    ¬ ∃ output, parseTraceroute output true ≠ parseTraceroute output false := by
  rintro ⟨output, h⟩
  exact h rfl

/-- Claim C9, amended: the platform flag carried alongside the raw output
never affects parsing; both flag values yield the identical address list. -/
theorem parse_ignores_platform_flag :
    ∀ (output : List String) (w w' : Bool),
      parseTraceroute output w = parseTraceroute output w' := by
  intro output w w'
  rfl

/-- Claim C10: the target string 0 is nonempty after trimming and satisfies
the allow-list, yet the endpoint answers with the missing-target envelope
for every environment, because PHP empty treats the string 0 as empty; the
pipeline is never consulted. -/
theorem target_zero_missing :
    phpTrim "0" ≠ "" ∧ targetPattern (phpTrim "0") = true ∧
    ∀ (out : List String) (w : Bool) (rc : Int) (oracle : String → Option ApiData)
      (ts : String), handleRequest (some "0") out w rc oracle ts = Response.missingTarget :=
  ⟨by decide, by decide, fun _ _ _ _ _ => rfl⟩

/-- Helper: the hop-number key appended by the enrichment loop is read back
from the record, whatever the lookup returned. -/
theorem jLookup_hop_append (ip : String) (resp : Option ApiData) (v : JVal) :
    jLookup "hop" (getGeolocation ip resp ++ [("hop", v)]) = some v := by
  rcases resp with _ | d
  · simp [getGeolocation, fallbackGeo, jLookup]
  · by_cases h : d.status = some (JVal.jstr "success") <;>
      simp [getGeolocation, fallbackGeo, h, jLookup]

/-- Helper: the hop records of the enrichment loop are the per-pair records
in order. -/
theorem geoLoop_fst (oracle : String → Option ApiData) (total : Nat) :
    ∀ pairs : List (Nat × String),
      (geoLoop oracle total pairs).1 = pairs.map (fun p =>
        getGeolocation p.2 (oracle p.2) ++ [("hop", JVal.jnum (Int.ofNat (p.1 + 1)))]) := by
  intro pairs
  induction pairs with
  | nil => rfl
  | cons p rest ih =>
    obtain ⟨idx, ip⟩ := p
    simp [geoLoop, ih]

/-- Helper: the event trace of the enrichment loop over an enumeration
starting at `k`, with the loop bound `total = k + l.length`, is the lookups
interspersed with single delays. -/
theorem geoLoop_events (oracle : String → Option ApiData) :
    ∀ (l : List String) (k total : Nat), total = k + l.length →
      (geoLoop oracle total (l.enumFrom k)).2
        = List.intersperse GeoEvent.delay (l.map GeoEvent.lookup) := by
  intro l
  induction l with
  | nil => intro k total h; rfl
  | cons a t ih =>
    intro k total h
    cases t with
    | nil =>
      have hc : ¬ k < total - 1 := by simp at h; omega
      show (geoLoop oracle total ((k, a) :: List.enumFrom (k + 1) [])).2 = _
      simp [geoLoop, hc]
    | cons b t2 =>
      have hc : k < total - 1 := by simp at h; omega
      have ht := ih (k + 1) total (by simp at h ⊢; omega)
      show (geoLoop oracle total ((k, a) :: List.enumFrom (k + 1) (b :: t2))).2 = _
      simp only [geoLoop, hc, if_true, List.map_cons, List.intersperse_cons_cons]
      simp only [List.singleton_append, List.cons.injEq, true_and]
      exact ht

/-- Helper: delays in an interspersed trace number one less than the
lookups. -/
theorem count_delay_intersperse :
    ∀ l : List String,
      (List.intersperse GeoEvent.delay (l.map GeoEvent.lookup)).count GeoEvent.delay
        = l.length - 1 := by
  intro l
  induction l with
  | nil => rfl
  | cons a t ih =>
    cases t with
    | nil => rfl
    | cons b t2 =>
      simp only [List.map_cons, List.intersperse, List.count_cons] at ih ⊢
      simp at ih ⊢
      omega

/-- Claim C7: for N addresses the enrichment loop issues its lookups strictly
in order with exactly one fixed delay between consecutive lookups and none
after the last, hence exactly N-1 delays (none for N = 0 or N = 1). -/
theorem enrichment_delays (oracle : String → Option ApiData) (ips : List String) :
    geoEvents oracle ips = List.intersperse GeoEvent.delay (ips.map GeoEvent.lookup) ∧
    (geoEvents oracle ips).count GeoEvent.delay = ips.length - 1 := by
  have he : geoEvents oracle ips
      = List.intersperse GeoEvent.delay (ips.map GeoEvent.lookup) :=
    geoLoop_events oracle ips 0 ips.length (by omega)
  exact ⟨he, by rw [he]; exact count_delay_intersperse ips⟩

/-- Helper: a nonempty list is not isEmpty. -/
theorem isEmpty_false_of_ne_nil {α : Type} {l : List α} (h : l ≠ []) : l.isEmpty = false := by
  cases l with
  | nil => exact absurd rfl h
  | cons a t => rfl

/-- Helper: once discovery output and parsed addresses are nonempty, the
pipeline always answers with the success envelope, for every oracle. -/
theorem runPipeline_success (t : String) (out : List String) (w : Bool) (rc : Int)
    (oracle : String → Option ApiData) (ts : String)
    (h1 : out ≠ []) (h2 : parseTraceroute out w ≠ []) :
    runPipeline t out w rc oracle ts =
      Response.success t ts (getGeolocations oracle (parseTraceroute out w)).length
        (getGeolocations oracle (parseTraceroute out w)) := by
  unfold runPipeline
  rw [if_neg (by rw [isEmpty_false_of_ne_nil h1]; exact Bool.false_ne_true),
    if_neg (by rw [isEmpty_false_of_ne_nil h2]; exact Bool.false_ne_true)]

/-- Helper: position `i` of the enrichment loop started at index `k` carries
hop number `k + i + 1`. -/
theorem geoLoop_hop (oracle : String → Option ApiData) :
    ∀ (l : List String) (k total i : Nat)
      (hi : i < (geoLoop oracle total (l.enumFrom k)).1.length),
      jLookup "hop" ((geoLoop oracle total (l.enumFrom k)).1.get ⟨i, hi⟩)
        = some (JVal.jnum (Int.ofNat (k + i + 1))) := by
  intro l
  induction l with
  | nil =>
    intro k total i hi
    simp [List.enumFrom, geoLoop] at hi
  | cons a t ih =>
    intro k total i hi
    cases i with
    | zero =>
      show jLookup "hop"
          (getGeolocation a (oracle a) ++ [("hop", JVal.jnum (Int.ofNat (k + 1)))]) = _
      rw [jLookup_hop_append]
    | succ j =>
      have hj : j < (geoLoop oracle total (List.enumFrom (k + 1) t)).1.length :=
        Nat.lt_of_succ_lt_succ hi
      have hrec := ih (k + 1) total j hj
      rw [show k + 1 + j + 1 = k + (j + 1) + 1 from by omega] at hrec
      exact hrec

/-- Helper: the records of `getGeolocations` carry hop numbers 1, 2, ... by
position. -/
theorem getGeolocations_hop (oracle : String → Option ApiData) (ips : List String)
    (i : Nat) (hi : i < (getGeolocations oracle ips).length) :
    jLookup "hop" ((getGeolocations oracle ips).get ⟨i, hi⟩)
      = some (JVal.jnum (Int.ofNat (i + 1))) := by
  have hrec := geoLoop_hop oracle ips 0 ips.length i hi
  rw [show 0 + i + 1 = i + 1 from by omega] at hrec
  exact hrec

/-- Claim C6: in every successful response the hopCount field equals the
length of the hops array and the hop numbers are the contiguous sequence
1, 2, ..., n assigned by position. -/
theorem hop_numbering (t : String) (out : List String) (w : Bool) (rc : Int)
    (oracle : String → Option ApiData) (ts t' ts' : String) (hc : Nat) (hops : List GeoRec)
    (h : runPipeline t out w rc oracle ts = Response.success t' ts' hc hops) :
    hc = hops.length ∧
    ∀ i (hi : i < hops.length),
      jLookup "hop" (hops.get ⟨i, hi⟩) = some (JVal.jnum (Int.ofNat (i + 1))) := by
  by_cases hout : out = []
  · subst hout
    simp [runPipeline] at h
  · by_cases hips : parseTraceroute out w = []
    · rw [runPipeline_noHops t out w rc oracle ts hout hips] at h
      cases h
    · rw [runPipeline_success t out w rc oracle ts hout hips] at h
      rw [Response.success.injEq] at h
      obtain ⟨-, -, h3, h4⟩ := h
      subst h4
      refine ⟨h3.symm, ?_⟩
      intro i hi
      exact getGeolocations_hop oracle (parseTraceroute out w) i hi

/-- Witness for C6 at a one-hop discovery output with a failing oracle. -/
theorem hop_numbering_witness :
    1 = [fallbackGeo "192.0.2.5" ++ [("hop", JVal.jnum 1)]].length ∧
    ∀ i (hi : i < [fallbackGeo "192.0.2.5" ++ [("hop", JVal.jnum 1)]].length),
      jLookup "hop" ([fallbackGeo "192.0.2.5" ++ [("hop", JVal.jnum 1)]].get ⟨i, hi⟩) =
        some (JVal.jnum (Int.ofNat (i + 1))) :=
  hop_numbering "example.com" ["[192.0.2.5]"] false 0 (fun _ => none) "ts"
    "example.com" "ts" 1 [fallbackGeo "192.0.2.5" ++ [("hop", JVal.jnum 1)]] (by decide)

/-- Claim C1, amended: when the lookup for an address fails (no usable HTTP
response, or a decoded response whose status is not success), the hop record
keeps the address in its ip key and carries null country, city, lat, lon and
isp; the countryCode, region, org and as keys are absent from the record
(the source fallback omits them) rather than present and null; and the
overall response is still the success envelope whenever the pipeline reaches
enrichment, for every oracle. -/
theorem geoFailure_fields_and_success (ip : String) (resp : Option ApiData)
    (h : resp = none ∨ ∃ d, resp = some d ∧ d.status ≠ some (JVal.jstr "success")) :
    (jLookup "ip" (getGeolocation ip resp) = some (JVal.jstr ip) ∧
     jLookup "country" (getGeolocation ip resp) = some JVal.null ∧
     jLookup "city" (getGeolocation ip resp) = some JVal.null ∧
     jLookup "lat" (getGeolocation ip resp) = some JVal.null ∧
     jLookup "lon" (getGeolocation ip resp) = some JVal.null ∧
     jLookup "isp" (getGeolocation ip resp) = some JVal.null ∧
     jLookup "countryCode" (getGeolocation ip resp) = none ∧
     jLookup "region" (getGeolocation ip resp) = none ∧
     jLookup "org" (getGeolocation ip resp) = none ∧
     jLookup "as" (getGeolocation ip resp) = none) ∧
    ∀ (t : String) (out : List String) (w : Bool) (rc : Int)
      (oracle : String → Option ApiData) (ts : String),
      out ≠ [] → parseTraceroute out w ≠ [] →
      ∃ hops, runPipeline t out w rc oracle ts = Response.success t ts hops.length hops := by
  constructor
  · have hf : getGeolocation ip resp = fallbackGeo ip := by
      rcases h with h | ⟨d, hd, hs⟩
      · rw [h, getGeolocation]
      · rw [hd, getGeolocation, if_neg hs]
    rw [hf]
    simp [fallbackGeo, jLookup]
  · intro t out w rc oracle ts h1 h2
    exact ⟨getGeolocations oracle (parseTraceroute out w),
      runPipeline_success t out w rc oracle ts h1 h2⟩

/-- Counterexample to C1 as stated: on a failed lookup the countryCode,
region, org and as keys are absent from the hop record, not present with a
null value. -/
theorem geoFailure_allNine_cex :
    jLookup "countryCode" (getGeolocation "1.2.3.4" none) = none ∧
    jLookup "region" (getGeolocation "1.2.3.4" none) = none ∧
    jLookup "org" (getGeolocation "1.2.3.4" none) = none ∧
    jLookup "as" (getGeolocation "1.2.3.4" none) = none := by decide

/-- Witness for C1 at a concrete failed lookup and a concrete one-hop
pipeline run with an always-failing oracle. -/
theorem geoFailure_fields_and_success_witness :
    (jLookup "ip" (getGeolocation "1.2.3.4" none) = some (JVal.jstr "1.2.3.4") ∧
     jLookup "country" (getGeolocation "1.2.3.4" none) = some JVal.null ∧
     jLookup "city" (getGeolocation "1.2.3.4" none) = some JVal.null ∧
     jLookup "lat" (getGeolocation "1.2.3.4" none) = some JVal.null ∧
     jLookup "lon" (getGeolocation "1.2.3.4" none) = some JVal.null ∧
     jLookup "isp" (getGeolocation "1.2.3.4" none) = some JVal.null ∧
     jLookup "countryCode" (getGeolocation "1.2.3.4" none) = none ∧
     jLookup "region" (getGeolocation "1.2.3.4" none) = none ∧
     jLookup "org" (getGeolocation "1.2.3.4" none) = none ∧
     jLookup "as" (getGeolocation "1.2.3.4" none) = none) ∧
    ∃ hops, runPipeline "example.com" ["[192.0.2.5]"] false 0 (fun _ => none) "ts"
      = Response.success "example.com" "ts" hops.length hops :=
  ⟨(geoFailure_fields_and_success "1.2.3.4" none (Or.inl rfl)).1,
   (geoFailure_fields_and_success "1.2.3.4" none (Or.inl rfl)).2
     "example.com" ["[192.0.2.5]"] false 0 (fun _ => none) "ts"
     (by decide) (by decide)⟩

/-- Helper: the loop body of the parser, described through the per-line
outcome. -/
theorem processLine_eq (ips : List String) (line : String) :
    processLine ips line = match lineAddr line with
      | none => ips
      | some ip => addIfNew ips ip := by
  by_cases h1 : phpEmpty (phpTrim line) = true <;>
    by_cases h2 : (containsTimedOut line || asteriskLine line.data) = true <;>
      cases hext : extractIp line <;>
        simp [processLine, lineAddr, addIfNew, h1, h2, hext]

/-- Helper: folding the parser loop over the lines is folding the dedup step
over the stream of extracted addresses. -/
theorem foldl_processLine (output : List String) (acc : List String) :
    output.foldl processLine acc = (output.filterMap lineAddr).foldl addIfNew acc := by
  induction output generalizing acc with
  | nil => rfl
  | cons a t ih =>
    cases hext : lineAddr a with
    | none =>
      rw [List.foldl_cons, processLine_eq, hext, List.filterMap_cons, hext]
      exact ih acc
    | some ip =>
      rw [List.foldl_cons, processLine_eq, hext, List.filterMap_cons, hext, List.foldl_cons]
      exact ih (addIfNew acc ip)

/-- Helper: the dedup fold keeps the accumulator and appends the
first-occurrence dedup of the remaining stream, skipping what is already
accumulated. -/
theorem foldl_addIfNew (s : List String) (acc : List String) :
    s.foldl addIfNew acc = acc ++ (dedupFirst s).filter (fun b => decide (b ∉ acc)) := by
  induction s generalizing acc with
  | nil => simp [dedupFirst]
  | cons a t ih =>
    rw [List.foldl_cons]
    by_cases ha : a ∈ acc
    · have hstep : addIfNew acc a = acc := by simp [addIfNew, ha]
      rw [hstep, ih acc, dedupFirst, List.filter_cons]
      have hpa : decide (a ∉ acc) = false := by simp [ha]
      rw [hpa]
      simp only [Bool.false_eq_true, if_false]
      congr 1
      rw [List.filter_filter]
      refine List.filter_congr ?_
      intro x hx
      by_cases hxa : x = a
      · subst hxa; simp [ha]
      · simp [hxa]
    · have hstep : addIfNew acc a = acc ++ [a] := by simp [addIfNew, ha]
      rw [hstep, ih (acc ++ [a]), dedupFirst, List.filter_cons]
      have hpa : decide (a ∉ acc) = true := by simp [ha]
      rw [hpa]
      simp only [if_true]
      rw [List.append_assoc, List.singleton_append]
      congr 1
      congr 1
      rw [List.filter_filter]
      refine List.filter_congr ?_
      intro x hx
      by_cases hxa : x = a
      · subst hxa; simp
      · by_cases hacc : x ∈ acc <;> simp [hacc, hxa, List.mem_append]

/-- Helper: the parser output is the first-occurrence dedup of the extracted
address stream. -/
theorem parse_eq_dedupFirst (output : List String) (w : Bool) :
    parseTraceroute output w = dedupFirst (output.filterMap lineAddr) := by
  show output.foldl processLine [] = _
  rw [foldl_processLine output [], foldl_addIfNew]
  simp

/-- Helper: membership is preserved by first-occurrence dedup. -/
theorem mem_dedupFirst (x : String) : ∀ s : List String, x ∈ dedupFirst s ↔ x ∈ s := by
  intro s
  induction s with
  | nil => simp [dedupFirst]
  | cons a t ih =>
    simp only [dedupFirst, List.mem_cons]
    constructor
    · rintro (h | h)
      · exact Or.inl h
      · exact Or.inr (ih.mp (List.mem_filter.mp h).1)
    · rintro (h | h)
      · exact Or.inl h
      · by_cases hxa : x = a
        · exact Or.inl hxa
        · exact Or.inr (List.mem_filter.mpr ⟨ih.mpr h, by simp [hxa]⟩)

/-- Helper: first-occurrence dedup has no duplicates. -/
theorem nodup_dedupFirst : ∀ s : List String, (dedupFirst s).Nodup := by
  intro s
  induction s with
  | nil => simp [dedupFirst]
  | cons a t ih =>
    show (a :: (dedupFirst t).filter (fun b => decide (b ≠ a))).Nodup
    rw [List.nodup_cons]
    refine ⟨?_, List.Nodup.filter _ ih⟩
    intro hmem
    have := (List.mem_filter.mp hmem).2
    simp at this

/-- Helper: first-occurrence dedup lists elements strictly ordered by the
index of their first appearance in the stream. -/
theorem pairwise_firstIdx_dedupFirst : ∀ s : List String,
    (dedupFirst s).Pairwise (fun x y => firstIdx x s < firstIdx y s) := by
  intro s
  induction s with
  | nil => simp [dedupFirst]
  | cons a t ih =>
    show (a :: (dedupFirst t).filter (fun b => decide (b ≠ a))).Pairwise _
    rw [List.pairwise_cons]
    constructor
    · intro y hy
      have hyne : y ≠ a := by
        have := (List.mem_filter.mp hy).2
        simpa using this
      have h0 : firstIdx a (a :: t) = 0 := by simp [firstIdx]
      have hy1 : firstIdx y (a :: t) = firstIdx y t + 1 := by simp [firstIdx, hyne]
      rw [h0, hy1]
      omega
    · have hp : ((dedupFirst t).filter (fun b => decide (b ≠ a))).Pairwise
          (fun x y => firstIdx x t < firstIdx y t) :=
        List.Pairwise.sublist (List.filter_sublist (dedupFirst t)) ih
      refine List.Pairwise.imp_of_mem ?_ hp
      intro x y hx hy hxy
      have hxa : x ≠ a := by
        have := (List.mem_filter.mp hx).2
        simpa using this
      have hya : y ≠ a := by
        have := (List.mem_filter.mp hy).2
        simpa using this
      have hx1 : firstIdx x (a :: t) = firstIdx x t + 1 := by simp [firstIdx, hxa]
      have hy1 : firstIdx y (a :: t) = firstIdx y t + 1 := by simp [firstIdx, hya]
      rw [hx1, hy1]
      omega

/-- Claim C2: the parser output has no duplicate address, contains exactly
the addresses extracted from the raw lines, lists them strictly in the order
of their first appearance in the extracted stream, and re-parsing identical
raw output yields the identical list. -/
theorem parse_nodup_firstAppearance (output : List String) (w : Bool) :
    (parseTraceroute output w).Nodup ∧
    (∀ a, a ∈ parseTraceroute output w ↔ a ∈ output.filterMap lineAddr) ∧
    (parseTraceroute output w).Pairwise (fun x y =>
      firstIdx x (output.filterMap lineAddr) < firstIdx y (output.filterMap lineAddr)) ∧
    parseTraceroute output w = parseTraceroute output w := by
  rw [parse_eq_dedupFirst]
  exact ⟨nodup_dedupFirst _, fun a => mem_dedupFirst a _,
    pairwise_firstIdx_dedupFirst _, rfl⟩

/-- Helper: an element that does not satisfy the predicate survives
dropWhile. -/
theorem mem_dropWhile_self {α : Type} (p : α → Bool) (c : α) :
    ∀ l : List α, c ∈ l → p c = false → c ∈ l.dropWhile p := by
  intro l
  induction l with
  | nil => intro h _; cases h
  | cons a t ih =>
    intro hmem hc
    rw [List.dropWhile_cons]
    by_cases hpa : p a = true
    · rw [if_pos hpa]
      rcases List.mem_cons.mp hmem with h | h
      · subst h
        rw [hc] at hpa
        cases hpa
      · exact ih h hc
    · rw [if_neg hpa]
      exact hmem

/-- Helper: a character that is not trimmable survives PHP trim. -/
theorem mem_phpTrim (s : String) (c : Char) (hc : c ∈ s.data)
    (hp : phpTrimChar c = false) : c ∈ (phpTrim s).data := by
  show c ∈ ((s.data.dropWhile phpTrimChar).reverse.dropWhile phpTrimChar).reverse
  rw [List.mem_reverse]
  refine mem_dropWhile_self _ _ _ ?_ hp
  rw [List.mem_reverse]
  exact mem_dropWhile_self _ _ _ hc hp

/-- Helper: a string equals the empty string exactly when its character list
is empty. -/
theorem string_data_nil (t : String) : t.data = [] ↔ t = "" := by
  rw [String.ext_iff]

/-- Helper: the pipeline only ever answers with the error or success
envelope, never with a validation envelope. -/
theorem runPipeline_shape (t : String) (out : List String) (w : Bool) (rc : Int)
    (oracle : String → Option ApiData) (ts : String) :
    runPipeline t out w rc oracle ts ≠ Response.missingTarget ∧
    runPipeline t out w rc oracle ts ≠ Response.invalidFormat := by
  by_cases h : out.isEmpty = true <;>
    by_cases h2 : (parseTraceroute out w).isEmpty = true <;>
      simp [runPipeline, h, h2]


/-- Claim C3, amended: the endpoint rejects a target exactly when its
trimmed form is empty, is the single character 0, or contains a character
outside letters, digits, dot and hyphen; any target containing a semicolon,
pipe, backtick or slash is rejected with the invalid-format envelope; the
three well-formed examples are accepted and handed to the pipeline; the
empty string is rejected as missing.  Rejection never consults the discovery
output or the oracle, so a rejected input is answered before any external
call. -/
theorem validator_characterization (s : String) (out : List String) (w : Bool) (rc : Int)
    (oracle : String → Option ApiData) (ts : String) :
    ((handleRequest (some s) out w rc oracle ts = Response.missingTarget ∨
      handleRequest (some s) out w rc oracle ts = Response.invalidFormat)
      ↔ ¬(phpTrim s ≠ "" ∧ phpTrim s ≠ "0" ∧
            (phpTrim s).data.all allowedTargetChar = true)) ∧
    (∀ b : Char, (b = ';' ∨ b = '|' ∨ b = Char.ofNat 96 ∨ b = '/') → b ∈ s.data →
      handleRequest (some s) out w rc oracle ts = Response.invalidFormat) ∧
    handleRequest (some "example.com") out w rc oracle ts
      = runPipeline "example.com" out w rc oracle ts ∧
    handleRequest (some "192.0.2.1") out w rc oracle ts
      = runPipeline "192.0.2.1" out w rc oracle ts ∧
    handleRequest (some "a-b.c-d.net") out w rc oracle ts
      = runPipeline "a-b.c-d.net" out w rc oracle ts ∧
    handleRequest (some "") out w rc oracle ts = Response.missingTarget := by
  have hshow : handleRequest (some s) out w rc oracle ts =
      (if phpEmpty (phpTrim s) then Response.missingTarget
       else if !targetPattern (phpTrim s) then Response.invalidFormat
       else runPipeline (phpTrim s) out w rc oracle ts) := rfl
  have hshape := runPipeline_shape (phpTrim s) out w rc oracle ts
  refine ⟨?_, ?_, rfl, rfl, rfl, rfl⟩
  · by_cases h1 : phpEmpty (phpTrim s) = true
    · have hh : handleRequest (some s) out w rc oracle ts = Response.missingTarget := by
        rw [hshow, if_pos h1]
      constructor
      · intro _
        simp only [phpEmpty, Bool.or_eq_true, beq_iff_eq] at h1
        rcases h1 with h | h <;> simp [h]
      · intro _
        exact Or.inl hh
    · by_cases h2 : targetPattern (phpTrim s) = true
      · have hh : handleRequest (some s) out w rc oracle ts
            = runPipeline (phpTrim s) out w rc oracle ts := by
          rw [hshow, if_neg h1, if_neg (by rw [h2]; simp)]
        have hAB : phpTrim s ≠ "" ∧ phpTrim s ≠ "0" := by
          constructor <;> intro he <;> rw [he] at h1 <;> exact h1 rfl
        have hC : (phpTrim s).data.all allowedTargetChar = true := by
          have h2' := h2
          unfold targetPattern at h2'
          simp only [Bool.and_eq_true] at h2'
          exact h2'.2
        constructor
        · intro hcase
          exfalso
          rcases hcase with hx | hx
          · exact hshape.1 (hh.symm.trans hx)
          · exact hshape.2 (hh.symm.trans hx)
        · intro hneg
          exact absurd ⟨hAB.1, hAB.2, hC⟩ hneg
      · have h2f : targetPattern (phpTrim s) = false := by
          revert h2
          cases targetPattern (phpTrim s) <;> simp
        have hh : handleRequest (some s) out w rc oracle ts = Response.invalidFormat := by
          rw [hshow, if_neg h1, if_pos (by rw [h2f]; rfl)]
        constructor
        · intro _
          rintro ⟨hA, hB, hC⟩
          apply h2
          have hdata : (phpTrim s).data ≠ [] := fun hnil => hA ((string_data_nil _).mp hnil)
          unfold targetPattern
          rw [isEmpty_false_of_ne_nil hdata, hC]
          rfl
        · intro _
          exact Or.inr hh
  · intro b hb hmem
    have hptc : phpTrimChar b = false := by
      rcases hb with h | h | h | h <;> subst h <;> decide
    have hab : allowedTargetChar b = false := by
      rcases hb with h | h | h | h <;> subst h <;> decide
    have hmem2 : b ∈ (phpTrim s).data := mem_phpTrim s b hmem hptc
    have hne1 : phpTrim s ≠ "" := by
      intro he
      rw [he] at hmem2
      cases hmem2
    have hne2 : phpTrim s ≠ "0" := by
      intro he
      rw [he] at hmem2
      have hb0 : b = '0' := by simpa using hmem2
      rcases hb with h | h | h | h <;> rw [hb0] at h <;> exact absurd h (by decide)
    have h1 : phpEmpty (phpTrim s) = false := by
      simp [phpEmpty, hne1, hne2]
    have hall : (phpTrim s).data.all allowedTargetChar = false := by
      cases hcase : (phpTrim s).data.all allowedTargetChar
      · rfl
      · exfalso
        have := List.all_eq_true.mp hcase b hmem2
        rw [hab] at this
        cases this
    have h2f : targetPattern (phpTrim s) = false := by
      unfold targetPattern
      rw [hall, Bool.and_false]
    rw [hshow, if_neg (by rw [h1]; exact Bool.false_ne_true), if_pos (by rw [h2f]; rfl)]

/-- Counterexample to C3 as stated: the single-digit target 0 is nonempty
after trimming and every character is allow-listed, yet it is rejected (as a
missing target); and the target consisting of a letter between two spaces
contains whitespace, yet it is accepted and reaches the pipeline. -/
theorem validator_claim_cex :
    (phpTrim "0" ≠ "" ∧ (phpTrim "0").data.all allowedTargetChar = true ∧
      handleRequest (some "0") ["x"] false 0 (fun _ => none) "ts"
        = Response.missingTarget) ∧
    (' ' ∈ " a ".data ∧
      handleRequest (some " a ") ["hello"] false 0 (fun _ => none) "ts"
        = Response.error "No valid IP addresses found in traceroute output" "a") :=
  ⟨⟨by decide, by decide, by decide⟩, by decide, by decide⟩

/-- Witness for C3 at a concrete semicolon-carrying target. -/
theorem validator_characterization_witness :
    handleRequest (some "a;b") ["x"] false 0 (fun _ => none) "ts"
      = Response.invalidFormat :=
  (validator_characterization "a;b" ["x"] false 0 (fun _ => none) "ts").2.1
    ';' (Or.inl rfl) (by decide)
